import Mathlib

/-!
Shallow embedding of the QRShield post-processing engine
(`src/services/geminiService.ts`, `src/unnamed/part_009`, `src/unnamed/part_006`).

JavaScript numbers are modelled as rationals (exact arithmetic); JS strings
are modelled as lists of characters; `Math.round` is modelled as
`fun q => Int.floor (q + 1/2)`, which agrees with JS rounding (half away
toward positive infinity) on every rational.
-/

/-- A ProbabilityMap (types.ts): three numeric fields malicious / fake / authentic. -/
structure ProbabilityMap where
  malicious : ℚ
  fake : ℚ
  authentic : ℚ
deriving DecidableEq, Repr

/-- The three dimensions of a ProbabilityMap, used to model the key-indexed
updates `adjusted[sorted[0].key] = ...` in the separation enforcers. -/
inductive Dim where
  | malicious
  | fake
  | authentic
deriving DecidableEq, Repr

/-- Field lookup by dimension key. -/
def getDim (p : ProbabilityMap) : Dim → ℚ
  | .malicious => p.malicious
  | .fake => p.fake
  | .authentic => p.authentic

/-- Field update by dimension key (the JS computed-member assignment). -/
def setDim (p : ProbabilityMap) : Dim → ℚ → ProbabilityMap
  | .malicious, v => { p with malicious := v }
  | .fake, v => { p with fake := v }
  | .authentic, v => { p with authentic := v }

/-- Key of `sorted[0]` for the stable descending sort of
`[malicious, fake, authentic]` used in both enforcers: the earliest-listed
dimension holding the maximum value (JS Array.prototype.sort is stable). -/
def hiKey (p : ProbabilityMap) : Dim :=
  if p.fake ≤ p.malicious ∧ p.authentic ≤ p.malicious then .malicious
  else if p.authentic ≤ p.fake then .fake
  else .authentic

/-- Key of `sorted[2]` for the same stable descending sort: the latest-listed
dimension holding the minimum value. -/
def loKey (p : ProbabilityMap) : Dim :=
  if p.authentic ≤ p.malicious ∧ p.authentic ≤ p.fake then .authentic
  else if p.fake ≤ p.malicious then .fake
  else .malicious

/-- The dimension distinct from two given distinct dimensions. -/
def thirdDim : Dim → Dim → Dim
  | .malicious, .fake => .authentic
  | .malicious, .authentic => .fake
  | .fake, .malicious => .authentic
  | .fake, .authentic => .malicious
  | .authentic, .malicious => .fake
  | .authentic, .fake => .malicious
  | .malicious, .malicious => .malicious
  | .fake, .fake => .malicious
  | .authentic, .authentic => .malicious

/-- Key of `sorted[1]` of the stable descending sort: the remaining dimension. -/
def midKey (p : ProbabilityMap) : Dim :=
  thirdDim (hiKey p) (loKey p)

/-- Maximum of the three pairwise absolute differences,
`Math.max(|m-f|, |m-a|, |f-a|)`. -/
def maxPairwiseDiff (p : ProbabilityMap) : ℚ :=
  max |p.malicious - p.fake| (max |p.malicious - p.authentic| |p.fake - p.authentic|)

/-- JS `Math.round`: round half toward positive infinity. -/
def mathRound (q : ℚ) : ℤ := ⌊q + 1 / 2⌋

/-- Every field of the triple lies in the percentage range [0, 100]. -/
def inUnitRange (p : ProbabilityMap) : Prop :=
  0 ≤ p.malicious ∧ p.malicious ≤ 100 ∧ 0 ≤ p.fake ∧ p.fake ≤ 100 ∧
  0 ≤ p.authentic ∧ p.authentic ≤ 100

namespace GeminiService

/-- Transcribed from `ensureDimensionalSeparation` in
src/services/geminiService.ts lines 35-54: if the maximum pairwise
difference is below 30, add 15 to the highest-ranked dimension (clamped at
100) and subtract 15 from the lowest-ranked dimension (clamped at 0). -/
def ensureDimensionalSeparation (probs : ProbabilityMap) : ProbabilityMap :=
  if maxPairwiseDiff probs < 30 then
    setDim (setDim probs (hiKey probs) (min 100 (getDim probs (hiKey probs) + 15)))
      (loKey probs) (max 0 (getDim probs (loKey probs) - 15))
  else probs

end GeminiService

namespace Part009

/-- Transcribed from `ensureDimensionalSeparation` in src/unnamed/part_009
lines 167-182: if the gap between the two highest-ranked dimensions
(`sorted[0].val - sorted[1].val`) is below 40, add 30 to the highest-ranked
dimension (clamped at 100) and subtract 30 from the lowest-ranked dimension
(clamped at 0). -/
def ensureDimensionalSeparation (probs : ProbabilityMap) : ProbabilityMap :=
  if |getDim probs (hiKey probs) - getDim probs (midKey probs)| < 40 then
    setDim (setDim probs (hiKey probs) (min 100 (getDim probs (hiKey probs) + 30)))
      (loKey probs) (max 0 (getDim probs (loKey probs) - 30))
  else probs

end Part009

/-- JS `String.prototype.toLowerCase` on ASCII payloads, character by character. -/
def jsToLower (s : List Char) : List Char := s.map Char.toLower

/-- JS `String.prototype.includes`: `jsIncludes hay needle` is true when `needle`
occurs as a contiguous substring of `hay`. -/
def jsIncludes : List Char → List Char → Bool
  | [], needle => needle.isPrefixOf []
  | c :: t, needle => needle.isPrefixOf (c :: t) || jsIncludes t needle

/-- Case-insensitive substring containment as worded in the specification:
the payload contains the pattern after case-folding both sides. -/
def ciContains (content p : List Char) : Bool :=
  jsIncludes (jsToLower content) (jsToLower p)

/-- The RiskLevel enumeration from src/types.ts, ascending severity. -/
inductive RiskLevel where
  | LOW
  | MODERATE
  | SUSPICIOUS
  | HIGH
  | CRITICAL
deriving DecidableEq, Repr

/-- Numeric severity rank of a RiskLevel (LOW least severe). -/
def severity : RiskLevel → ℕ
  | .LOW => 0
  | .MODERATE => 1
  | .SUSPICIOUS => 2
  | .HIGH => 3
  | .CRITICAL => 4

/-- JSON-shaped value for modelling fields of the parsed upstream response
that may fail to be numeric. -/
inductive JsonVal where
  | jnum (q : ℚ)
  | jstr (s : List Char)
  | jbool (b : Bool)
  | jnull
deriving DecidableEq, Repr

/-- JS truthiness of a JSON value: 0, the empty string, false and null are
falsy; everything else is truthy. -/
def truthy : JsonVal → Bool
  | .jnum q => if q = 0 then false else true
  | .jstr s => !s.isEmpty
  | .jbool b => b
  | .jnull => false

/-- The probability-field extraction `raw.probability_breakdown?.field || 0`
(geminiService.ts line 132, part_009 line 267) over JSON values: an absent
field (`none`, the optional chain yielding undefined) or a falsy value
becomes the number 0; any truthy value passes through unchanged, whatever
its type. -/
def probFieldOrZero (v : Option JsonVal) : JsonVal :=
  match v with
  | none => .jnum 0
  | some x => if truthy x then x else .jnum 0

/-- The `probability_breakdown` object of the upstream response schema, with
each field absent (undefined/null) or a number, per the declared schema. -/
structure ProbBreakdown where
  malicious_intent : Option ℚ
  fake_or_pseudo_pattern : Option ℚ
  official_or_authentic : Option ℚ
deriving DecidableEq, Repr

/-- The parsed upstream JSON response, typed per the declared response
schema; `none` models an absent (or null) field. -/
structure RawResponse where
  probability_breakdown : Option ProbBreakdown
  risk_level : Option RiskLevel
  expert_assessment : Option (List Char)
  recommended_actions : Option (List (List Char))
  originalContent : Option (List Char)
deriving DecidableEq, Repr

/-- The AnalysisResult record from src/types.ts (the `groundingSources` and
`systemStatus` extras of individual variants are not used by any claim). -/
structure AnalysisResult where
  riskScore : ℤ
  riskLevel : RiskLevel
  explanation : List Char
  recommendations : List (List Char)
  originalContent : List Char
  probabilities : ProbabilityMap
deriving DecidableEq, Repr

/-- JS `x || d` for a string-or-null `x`: null and the empty string are
falsy and give the default. -/
def strOrDefault (v : Option (List Char)) (d : List Char) : List Char :=
  match v with
  | none => d
  | some s => if s = [] then d else s

/-- The raw-probability extraction step (geminiService.ts lines 131-135,
part_009 lines 266-270) on a schema-typed response: for numeric JSON values
`x || 0` coincides with defaulting an absent field to 0, since the only
falsy number is 0 itself. -/
def extractProbs (raw : RawResponse) : ProbabilityMap :=
  { malicious := (raw.probability_breakdown.bind ProbBreakdown.malicious_intent).getD 0
    fake := (raw.probability_breakdown.bind ProbBreakdown.fake_or_pseudo_pattern).getD 0
    authentic := (raw.probability_breakdown.bind ProbBreakdown.official_or_authentic).getD 0 }

namespace GeminiService

/-- The local score recomputation of geminiService.ts line 141 and the
rounding of line 144: clamp `0.5*m + 0.4*f - 0.3*a` to 0-100, then round. -/
def computeScore (probs : ProbabilityMap) : ℤ :=
  mathRound
    (max 0 (min 100 (0.5 * probs.malicious + 0.4 * probs.fake - 0.3 * probs.authentic)))

/-- Transcribed from `processResponse` in src/services/geminiService.ts lines
117-152: extract raw probabilities, enforce separation, recompute the score
locally with weights 0.5 / 0.4 / 0.3 (clamped to 0-100 then rounded), and
assemble the result; `riskLevel` is taken from the upstream `risk_level`
string (MODERATE when absent or empty), not derived from the score. -/
def processResponse (raw : RawResponse) (defaultContent : List Char) : AnalysisResult :=
  let probs := ensureDimensionalSeparation (extractProbs raw)
  { riskScore := computeScore probs
    riskLevel := raw.risk_level.getD RiskLevel.MODERATE
    explanation := strOrDefault raw.expert_assessment ("No detailed forensic log generated.".toList)
    recommendations := raw.recommended_actions.getD [("Exercise high caution.".toList)]
    originalContent := strOrDefault raw.originalContent defaultContent
    probabilities := probs }

/-- Transcribed from `getErrorResult` in src/services/geminiService.ts lines
154-169: the fixed fallback AnalysisResult used when the engine cannot run. -/
def getErrorResult (content errorType : List Char) : AnalysisResult :=
  let isKeyError := jsIncludes errorType ("API_KEY_MISSING".toList)
  { riskScore := if isKeyError then 0 else 50
    riskLevel := if isKeyError then RiskLevel.LOW else RiskLevel.SUSPICIOUS
    explanation :=
      if isKeyError then
        ("FORENSIC ENGINE OFFLINE: The API_KEY environment variable is not set in your VS Code environment. Create a .env file locally with your key to enable the AI.".toList)
      else
        ("FORENSIC DISRUPTION: ".toList) ++ errorType ++ (". Manual verification required.".toList)
    recommendations :=
      if isKeyError then
        [("Configure local .env file".toList), ("Restart VS Code terminal".toList),
         ("Check API permissions".toList)]
      else
        [("Check domain spelling".toList),
         ("Don".toList) ++ [Char.ofNat 39] ++ ("t submit personal info".toList),
         ("Scan again in 60 seconds".toList)]
    originalContent := content
    probabilities := ⟨0, 0, 0⟩ }

/-- Transcribed from `performDeepAnalysis` in src/services/geminiService.ts
lines 56-115. The remote call and JSON parse are modelled by the `remote`
argument: `.error e` covers a thrown remote error or an unparseable response
body (both land in the same catch clause with message `e`), `.ok raw` a
response whose body parsed to `raw`. A missing API key short-circuits before
the call; every failure path returns `getErrorResult`, never an exception. -/
def performDeepAnalysis (content : Option (List Char)) (apiKeyPresent : Bool)
    (remote : Except (List Char) RawResponse) : AnalysisResult :=
  if apiKeyPresent = false then
    getErrorResult (strOrDefault content ("Analysis Halted".toList)) ("API_KEY_MISSING".toList)
  else
    match remote with
    | .error e => getErrorResult (strOrDefault content ("Scan Failed".toList)) e
    | .ok raw => processResponse raw (strOrDefault content ("Encoded Artifact".toList))

end GeminiService

namespace Part009

/-- The fixed pattern table of src/unnamed/part_009 lines 148-152. -/
def badPatterns : List (List Char) :=
  [("bit.ly".toList), ("t.co".toList), ("tinyurl".toList), ("is.gd".toList),
   ("buff.ly".toList), ("adf.ly".toList), ("bit.do".toList), ("mcaf.ee".toList),
   ("base64".toList), ("data:".toList), ("javascript:".toList), ("upi://".toList),
   ("target=".toList), ("redirect=".toList), ("login".toList), ("verify".toList),
   ("account".toList), ("secure".toList), ("billing".toList), ("update".toList)]

/-- Transcribed from `applyHeuristicOverrides` in src/unnamed/part_009 lines
147-165: lowercase the payload, test every table entry for substring
containment; on any match force malicious to at least 90, fake to exactly
100 and authentic to at most 5; otherwise pass the triple through. -/
def applyHeuristicOverrides (probs : ProbabilityMap) (content : List Char) : ProbabilityMap :=
  if badPatterns.any fun p => jsIncludes (jsToLower content) p then
    { malicious := max probs.malicious 90
      fake := 100
      authentic := min probs.authentic 5 }
  else probs

/-- The risk-level banding of src/unnamed/part_009 lines 278-282: LOW below
20, then MODERATE, SUSPICIOUS, HIGH at 20/40/60, CRITICAL from 80 up. -/
def riskLevelOf (s : ℤ) : RiskLevel :=
  if 80 ≤ s then .CRITICAL
  else if 60 ≤ s then .HIGH
  else if 40 ≤ s then .SUSPICIOUS
  else if 20 ≤ s then .MODERATE
  else .LOW

/-- The score computation of src/unnamed/part_009 lines 275-276: weight by
0.8 / 0.7 / 0.5, amplify by 1.35, round, then clamp to 0-100. -/
def computeScore (probs : ProbabilityMap) : ℤ :=
  max 0 (min 100 (mathRound
    ((0.8 * probs.malicious + 0.7 * probs.fake - 0.5 * probs.authentic) * 1.35)))

/-- Transcribed from `processResponse` in src/unnamed/part_009 lines 264-293:
extract raw probabilities, apply heuristic overrides against the payload,
enforce separation, score with weights 0.8 / 0.7 / 0.5 amplified by 1.35
(rounded then clamped to 0-100), and classify the level from the score. -/
def processResponse (raw : RawResponse) (defaultContent : List Char) : AnalysisResult :=
  let probs := ensureDimensionalSeparation
    (applyHeuristicOverrides (extractProbs raw) defaultContent)
  { riskScore := computeScore probs
    riskLevel := riskLevelOf (computeScore probs)
    explanation := strOrDefault raw.expert_assessment ("No log generated.".toList)
    recommendations := raw.recommended_actions.getD [("Exercise caution.".toList)]
    originalContent := defaultContent
    probabilities := probs }

end Part009

namespace Part006

/-- The fixed pattern table of src/unnamed/part_006 lines 29-32. -/
def badPatterns : List (List Char) :=
  [("bit.ly".toList), ("t.co".toList), ("tinyurl".toList), ("is.gd".toList),
   ("scan.page".toList), ("qrco.de".toList), ("qr-code-generator".toList),
   ("base64".toList), ("data:".toList), ("javascript:".toList), ("upi://".toList),
   ("target=".toList), ("redirect=".toList), ("login".toList)]

/-- Transcribed from `applyHeuristicOverrides` in src/unnamed/part_006 lines
28-45: same shape as the part_009 variant with a malicious floor of 85 and
its own pattern table. -/
def applyHeuristicOverrides (probs : ProbabilityMap) (content : List Char) : ProbabilityMap :=
  if badPatterns.any fun p => jsIncludes (jsToLower content) p then
    { malicious := max probs.malicious 85
      fake := 100
      authentic := min probs.authentic 5 }
  else probs

end Part006

theorem getDim_setDim_same (p : ProbabilityMap) (k : Dim) (v : ℚ) :
    getDim (setDim p k v) k = v := by
  cases k <;> rfl

theorem getDim_setDim_ne (p : ProbabilityMap) (k k' : Dim) (v : ℚ) (h : k ≠ k') :
    getDim (setDim p k v) k' = getDim p k' := by
  cases k <;> cases k' <;> simp_all [getDim, setDim]

/-- The value at `hiKey` is the maximum of the three dimensions. -/
theorem getDim_le_hiKey (p : ProbabilityMap) (k : Dim) :
    getDim p k ≤ getDim p (hiKey p) := by
  unfold hiKey
  split_ifs with h1 h2
  · cases k <;> simp only [getDim]
    · exact le_refl _
    · exact h1.1
    · exact h1.2
  · rw [not_and_or] at h1
    push_neg at h1
    cases k <;> simp only [getDim]
    · rcases h1 with h | h <;> linarith
    · exact le_refl _
    · exact h2
  · rw [not_and_or] at h1
    push_neg at h1 h2
    cases k <;> simp only [getDim]
    · rcases h1 with h | h <;> linarith
    · linarith
    · exact le_refl _

/-- The value at `loKey` is the minimum of the three dimensions. -/
theorem loKey_le_getDim (p : ProbabilityMap) (k : Dim) :
    getDim p (loKey p) ≤ getDim p k := by
  unfold loKey
  split_ifs with h1 h2
  · cases k <;> simp only [getDim]
    · exact h1.1
    · exact h1.2
    · exact le_refl _
  · rw [not_and_or] at h1
    push_neg at h1
    cases k <;> simp only [getDim]
    · exact h2
    · exact le_refl _
    · rcases h1 with h | h <;> linarith
  · rw [not_and_or] at h1
    push_neg at h1 h2
    cases k <;> simp only [getDim]
    · exact le_refl _
    · linarith
    · rcases h1 with h | h <;> linarith

/-- The highest- and lowest-ranked keys of the stable sort never coincide. -/
theorem hiKey_ne_loKey (p : ProbabilityMap) : hiKey p ≠ loKey p := by
  intro h
  have hm : getDim p (hiKey p) = getDim p (loKey p) := by rw [h]
  have heq : ∀ k, getDim p k = getDim p (loKey p) := fun k =>
    le_antisymm (hm ▸ getDim_le_hiKey p k) (loKey_le_getDim p k)
  have hf : p.fake = p.malicious := (heq .fake).trans (heq .malicious).symm
  have ha : p.authentic = p.malicious := (heq .authentic).trans (heq .malicious).symm
  have h1 : hiKey p = .malicious := by
    unfold hiKey
    rw [if_pos ⟨le_of_eq hf, le_of_eq ha⟩]
  have h2 : loKey p = .authentic := by
    unfold loKey
    rw [if_pos ⟨le_of_eq ha, le_of_eq (ha.trans hf.symm)⟩]
  rw [h1, h2] at h
  exact Dim.noConfusion h

/-- The third dimension differs from both inputs whenever they differ. -/
theorem thirdDim_ne (k1 k2 : Dim) (h : k1 ≠ k2) :
    thirdDim k1 k2 ≠ k1 ∧ thirdDim k1 k2 ≠ k2 := by
  cases k1 <;> cases k2 <;> simp_all [thirdDim]

theorem midKey_ne_hiKey (p : ProbabilityMap) : midKey p ≠ hiKey p :=
  (thirdDim_ne (hiKey p) (loKey p) (hiKey_ne_loKey p)).1

theorem midKey_ne_loKey (p : ProbabilityMap) : midKey p ≠ loKey p :=
  (thirdDim_ne (hiKey p) (loKey p) (hiKey_ne_loKey p)).2

/-- Any pairwise absolute difference of two distinct dimensions is bounded by
the maximum pairwise difference. -/
theorem abs_getDim_le_maxPairwiseDiff (p : ProbabilityMap) (k k' : Dim) (h : k ≠ k') :
    |getDim p k - getDim p k'| ≤ maxPairwiseDiff p := by
  unfold maxPairwiseDiff
  cases k <;> cases k' <;> simp only [getDim]
  · exact absurd rfl h
  · exact le_max_left _ _
  · exact le_trans (le_max_left _ _) (le_max_right _ _)
  · rw [abs_sub_comm]
    exact le_max_left _ _
  · exact absurd rfl h
  · exact le_trans (le_max_right _ _) (le_max_right _ _)
  · rw [abs_sub_comm]
    exact le_trans (le_max_left _ _) (le_max_right _ _)
  · rw [abs_sub_comm]
    exact le_trans (le_max_right _ _) (le_max_right _ _)
  · exact absurd rfl h

/-- Bounds on all three fields transfer to every `getDim` lookup. -/
theorem getDim_bounds (p : ProbabilityMap) (lo hi : ℚ)
    (hm : lo ≤ p.malicious ∧ p.malicious ≤ hi)
    (hf : lo ≤ p.fake ∧ p.fake ≤ hi)
    (ha : lo ≤ p.authentic ∧ p.authentic ≤ hi) (k : Dim) :
    lo ≤ getDim p k ∧ getDim p k ≤ hi := by
  cases k <;> simp only [getDim] <;> assumption

theorem mathRound_nonneg (q : ℚ) (h : 0 ≤ q) : 0 ≤ mathRound q := by
  unfold mathRound
  exact Int.le_floor.mpr (by push_cast; linarith)

theorem mathRound_le_100 (q : ℚ) (h : q ≤ 100) : mathRound q ≤ 100 := by
  unfold mathRound
  calc ⌊q + 1 / 2⌋ ≤ ⌊(201 : ℚ) / 2⌋ := Int.floor_mono (by linarith)
    _ = 100 := by norm_num

/-- C1 (amended): after the Dimensional Separation Enforcer runs, the maximum
pairwise absolute difference meets the configured minimum delta (30 in the
geminiService.ts variant, 40 in the part_009 variant) for every input triple
whose fields all lie far enough inside [0, 100] that neither clamp fires:
within [15, 85] for the step-15 variant and within [30, 70] for the step-30
variant. At the extremes the clamps can leave the separation below the
delta. -/
theorem separation_delta_holds_away_from_extremes :
    (∀ p : ProbabilityMap,
      15 ≤ p.malicious → p.malicious ≤ 85 →
      15 ≤ p.fake → p.fake ≤ 85 →
      15 ≤ p.authentic → p.authentic ≤ 85 →
      30 ≤ maxPairwiseDiff (GeminiService.ensureDimensionalSeparation p)) ∧
    (∀ p : ProbabilityMap,
      30 ≤ p.malicious → p.malicious ≤ 70 →
      30 ≤ p.fake → p.fake ≤ 70 →
      30 ≤ p.authentic → p.authentic ≤ 70 →
      40 ≤ maxPairwiseDiff (Part009.ensureDimensionalSeparation p)) := by
  constructor
  · intro p hm1 hm2 hf1 hf2 ha1 ha2
    unfold GeminiService.ensureDimensionalSeparation
    split_ifs with hlt
    · have hne := hiKey_ne_loKey p
      have hb := getDim_bounds p 15 85 ⟨hm1, hm2⟩ ⟨hf1, hf2⟩ ⟨ha1, ha2⟩
      have hhi : getDim p (hiKey p) + 15 ≤ 100 := by linarith [(hb (hiKey p)).2]
      have hlo : (0 : ℚ) ≤ getDim p (loKey p) - 15 := by linarith [(hb (loKey p)).1]
      have hord : getDim p (loKey p) ≤ getDim p (hiKey p) := loKey_le_getDim p (hiKey p)
      set r := setDim (setDim p (hiKey p) (min 100 (getDim p (hiKey p) + 15)))
        (loKey p) (max 0 (getDim p (loKey p) - 15)) with hrdef
      have e1 : getDim r (loKey p) = getDim p (loKey p) - 15 := by
        rw [hrdef, getDim_setDim_same]
        exact max_eq_right hlo
      have e2 : getDim r (hiKey p) = getDim p (hiKey p) + 15 := by
        rw [hrdef, getDim_setDim_ne _ _ _ _ (Ne.symm hne), getDim_setDim_same]
        exact min_eq_right hhi
      calc (30 : ℚ) ≤ |getDim r (hiKey p) - getDim r (loKey p)| := by
            rw [e1, e2, abs_of_nonneg (by linarith)]
            linarith
        _ ≤ maxPairwiseDiff r := abs_getDim_le_maxPairwiseDiff r _ _ hne
    · exact not_lt.mp hlt
  · intro p hm1 hm2 hf1 hf2 ha1 ha2
    unfold Part009.ensureDimensionalSeparation
    split_ifs with hlt
    · have hne := hiKey_ne_loKey p
      have hb := getDim_bounds p 30 70 ⟨hm1, hm2⟩ ⟨hf1, hf2⟩ ⟨ha1, ha2⟩
      have hhi : getDim p (hiKey p) + 30 ≤ 100 := by linarith [(hb (hiKey p)).2]
      have hlo : (0 : ℚ) ≤ getDim p (loKey p) - 30 := by linarith [(hb (loKey p)).1]
      have hord : getDim p (loKey p) ≤ getDim p (hiKey p) := loKey_le_getDim p (hiKey p)
      set r := setDim (setDim p (hiKey p) (min 100 (getDim p (hiKey p) + 30)))
        (loKey p) (max 0 (getDim p (loKey p) - 30)) with hrdef
      have e1 : getDim r (loKey p) = getDim p (loKey p) - 30 := by
        rw [hrdef, getDim_setDim_same]
        exact max_eq_right hlo
      have e2 : getDim r (hiKey p) = getDim p (hiKey p) + 30 := by
        rw [hrdef, getDim_setDim_ne _ _ _ _ (Ne.symm hne), getDim_setDim_same]
        exact min_eq_right hhi
      calc (40 : ℚ) ≤ |getDim r (hiKey p) - getDim r (loKey p)| := by
            rw [e1, e2, abs_of_nonneg (by linarith)]
            linarith
        _ ≤ maxPairwiseDiff r := abs_getDim_le_maxPairwiseDiff r _ _ hne
    · calc (40 : ℚ) ≤ |getDim p (hiKey p) - getDim p (midKey p)| := not_lt.mp hlt
        _ ≤ maxPairwiseDiff p :=
          abs_getDim_le_maxPairwiseDiff p _ _ (Ne.symm (midKey_ne_hiKey p))

/-- C1 witness: at the interior triple (50, 50, 50) both enforcers reach the
configured delta. -/
theorem separation_delta_holds_away_from_extremes_witness :
    30 ≤ maxPairwiseDiff (GeminiService.ensureDimensionalSeparation ⟨50, 50, 50⟩) ∧
    40 ≤ maxPairwiseDiff (Part009.ensureDimensionalSeparation ⟨50, 50, 50⟩) :=
  ⟨separation_delta_holds_away_from_extremes.1 ⟨50, 50, 50⟩ (by norm_num) (by norm_num)
      (by norm_num) (by norm_num) (by norm_num) (by norm_num),
   separation_delta_holds_away_from_extremes.2 ⟨50, 50, 50⟩ (by norm_num) (by norm_num)
      (by norm_num) (by norm_num) (by norm_num) (by norm_num)⟩

/-- C1 counterexample: at the degenerate all-zero triple both enforcers leave
the maximum pairwise difference strictly below the configured delta, because
the downward adjustment is clamped at 0. -/
theorem separation_delta_fails_at_extremes :
    maxPairwiseDiff (GeminiService.ensureDimensionalSeparation ⟨0, 0, 0⟩) < 30 ∧
    maxPairwiseDiff (Part009.ensureDimensionalSeparation ⟨0, 0, 0⟩) < 40 := by
  constructor
  · norm_num [GeminiService.ensureDimensionalSeparation, maxPairwiseDiff, hiKey, loKey,
      getDim, setDim]
  · norm_num [Part009.ensureDimensionalSeparation, maxPairwiseDiff, midKey, thirdDim,
      hiKey, loKey, getDim, setDim]

/-- C5 (amended): both enforcers leave an already-separated triple unchanged
and otherwise adjust only the highest- and lowest-ranked dimensions (step
clamped at 100 and 0, middle untouched) — but the two variants test
different conditions: the geminiService.ts variant compares the maximum
pairwise difference against 30, while the part_009 variant compares only
the gap between the two highest-ranked dimensions against 40. -/
theorem separation_enforcer_step_behaviour :
    (∀ p : ProbabilityMap,
      (30 ≤ maxPairwiseDiff p → GeminiService.ensureDimensionalSeparation p = p) ∧
      (maxPairwiseDiff p < 30 →
        getDim (GeminiService.ensureDimensionalSeparation p) (hiKey p)
            = min 100 (getDim p (hiKey p) + 15) ∧
        getDim (GeminiService.ensureDimensionalSeparation p) (loKey p)
            = max 0 (getDim p (loKey p) - 15) ∧
        getDim (GeminiService.ensureDimensionalSeparation p) (midKey p)
            = getDim p (midKey p))) ∧
    (∀ p : ProbabilityMap,
      (40 ≤ |getDim p (hiKey p) - getDim p (midKey p)| →
        Part009.ensureDimensionalSeparation p = p) ∧
      (|getDim p (hiKey p) - getDim p (midKey p)| < 40 →
        getDim (Part009.ensureDimensionalSeparation p) (hiKey p)
            = min 100 (getDim p (hiKey p) + 30) ∧
        getDim (Part009.ensureDimensionalSeparation p) (loKey p)
            = max 0 (getDim p (loKey p) - 30) ∧
        getDim (Part009.ensureDimensionalSeparation p) (midKey p)
            = getDim p (midKey p))) := by
  constructor
  · intro p
    constructor
    · intro h
      unfold GeminiService.ensureDimensionalSeparation
      rw [if_neg (not_lt.mpr h)]
    · intro h
      unfold GeminiService.ensureDimensionalSeparation
      rw [if_pos h]
      refine ⟨?_, ?_, ?_⟩
      · rw [getDim_setDim_ne _ _ _ _ (Ne.symm (hiKey_ne_loKey p)), getDim_setDim_same]
      · rw [getDim_setDim_same]
      · rw [getDim_setDim_ne _ _ _ _ (Ne.symm (midKey_ne_loKey p)),
          getDim_setDim_ne _ _ _ _ (Ne.symm (midKey_ne_hiKey p))]
  · intro p
    constructor
    · intro h
      unfold Part009.ensureDimensionalSeparation
      rw [if_neg (not_lt.mpr h)]
    · intro h
      unfold Part009.ensureDimensionalSeparation
      rw [if_pos h]
      refine ⟨?_, ?_, ?_⟩
      · rw [getDim_setDim_ne _ _ _ _ (Ne.symm (hiKey_ne_loKey p)), getDim_setDim_same]
      · rw [getDim_setDim_same]
      · rw [getDim_setDim_ne _ _ _ _ (Ne.symm (midKey_ne_loKey p)),
          getDim_setDim_ne _ _ _ _ (Ne.symm (midKey_ne_hiKey p))]

/-- C5 witness: the geminiService variant passes (100, 0, 50) through
unchanged, and the part_009 variant adjusts the highest-ranked dimension of
(50, 45, 0). -/
theorem separation_enforcer_step_behaviour_witness :
    GeminiService.ensureDimensionalSeparation ⟨100, 0, 50⟩ = ⟨100, 0, 50⟩ ∧
    getDim (Part009.ensureDimensionalSeparation ⟨50, 45, 0⟩) (hiKey ⟨50, 45, 0⟩)
        = min 100 (getDim ⟨50, 45, 0⟩ (hiKey ⟨50, 45, 0⟩) + 30) :=
  ⟨(separation_enforcer_step_behaviour.1 ⟨100, 0, 50⟩).1 (by norm_num [maxPairwiseDiff]),
   ((separation_enforcer_step_behaviour.2 ⟨50, 45, 0⟩).2
      (by norm_num [hiKey, loKey, midKey, thirdDim, getDim])).1⟩

/-- C5 counterexample: the triple (50, 45, 0) already has maximum pairwise
difference 50 ≥ 40, yet the part_009 enforcer does not return it unchanged —
it raises malicious to 80 because the gap between the two highest dimensions
is only 5. -/
theorem p9_enforcer_modifies_separated_triple :
    40 ≤ maxPairwiseDiff ⟨50, 45, 0⟩ ∧
    Part009.ensureDimensionalSeparation ⟨50, 45, 0⟩ = ⟨80, 45, 0⟩ ∧
    (⟨80, 45, 0⟩ : ProbabilityMap) ≠ ⟨50, 45, 0⟩ := by
  refine ⟨by norm_num [maxPairwiseDiff], ?_, by decide⟩
  norm_num [Part009.ensureDimensionalSeparation, midKey, thirdDim, hiKey, loKey,
    getDim, setDim]

/-- C2: for every probability triple (including out-of-range and negative
synthetic inputs) the composite risk score of either pipeline variant is an
integer in [0, 100]; and the assembled riskScore is exactly that composite
score of the pipeline-final triple. -/
theorem composite_score_in_unit_range :
    (∀ p : ProbabilityMap,
      0 ≤ GeminiService.computeScore p ∧ GeminiService.computeScore p ≤ 100) ∧
    (∀ p : ProbabilityMap,
      0 ≤ Part009.computeScore p ∧ Part009.computeScore p ≤ 100) ∧
    (∀ (raw : RawResponse) (dc : List Char),
      (GeminiService.processResponse raw dc).riskScore
          = GeminiService.computeScore
              (GeminiService.ensureDimensionalSeparation (extractProbs raw)) ∧
      (Part009.processResponse raw dc).riskScore
          = Part009.computeScore (Part009.ensureDimensionalSeparation
              (Part009.applyHeuristicOverrides (extractProbs raw) dc))) := by
  refine ⟨?_, ?_, fun raw dc => ⟨rfl, rfl⟩⟩
  · intro p
    unfold GeminiService.computeScore
    constructor
    · exact mathRound_nonneg _ (le_max_left _ _)
    · exact mathRound_le_100 _ (max_le (by norm_num) (min_le_left _ _))
  · intro p
    unfold Part009.computeScore
    constructor
    · exact le_max_left _ _
    · exact max_le (by norm_num) (min_le_left _ _)

theorem list_any_congr {α : Type} {l : List α} {p q : α → Bool}
    (h : ∀ a ∈ l, p a = q a) : l.any p = l.any q := by
  induction l with
  | nil => rfl
  | cons x t ih =>
    simp only [List.any_cons]
    rw [h x (List.mem_cons_self x t), ih fun a ha => h a (List.mem_cons_of_mem x ha)]

theorem p9_patterns_lowercase : ∀ p ∈ Part009.badPatterns, jsToLower p = p := by decide

theorem p6_patterns_lowercase : ∀ p ∈ Part006.badPatterns, jsToLower p = p := by decide

/-- Lowercasing only the payload (as the code does) agrees with case-folding
both sides (as the spec words it), because every table entry is lowercase. -/
theorem p9_code_matcher_eq_ciContains (c : List Char) :
    (Part009.badPatterns.any fun p => jsIncludes (jsToLower c) p)
      = (Part009.badPatterns.any fun p => ciContains c p) :=
  list_any_congr fun p hp => by
    unfold ciContains
    rw [p9_patterns_lowercase p hp]

theorem p6_code_matcher_eq_ciContains (c : List Char) :
    (Part006.badPatterns.any fun p => jsIncludes (jsToLower c) p)
      = (Part006.badPatterns.any fun p => ciContains c p) :=
  list_any_congr fun p hp => by
    unfold ciContains
    rw [p6_patterns_lowercase p hp]

/-- C4: when the payload contains (case-insensitively) any entry of the fixed
pattern table, the Heuristic Override Engine returns
(max(malicious, floor), 100, min(authentic, ceiling)) with floor 90 in the
part_009 variant and 85 in the part_006 variant; fake is an exact
replacement with 100. With no match — in particular for the empty payload,
which matches nothing — the raw triple passes through unmodified. -/
theorem heuristic_override_behaviour :
    (∀ (probs : ProbabilityMap) (content : List Char),
      ((Part009.badPatterns.any fun p => ciContains content p) = true →
        Part009.applyHeuristicOverrides probs content
          = ⟨max probs.malicious 90, 100, min probs.authentic 5⟩) ∧
      ((Part009.badPatterns.any fun p => ciContains content p) = false →
        Part009.applyHeuristicOverrides probs content = probs)) ∧
    (∀ (probs : ProbabilityMap) (content : List Char),
      ((Part006.badPatterns.any fun p => ciContains content p) = true →
        Part006.applyHeuristicOverrides probs content
          = ⟨max probs.malicious 85, 100, min probs.authentic 5⟩) ∧
      ((Part006.badPatterns.any fun p => ciContains content p) = false →
        Part006.applyHeuristicOverrides probs content = probs)) ∧
    (Part009.badPatterns.any fun p => ciContains [] p) = false ∧
    (Part006.badPatterns.any fun p => ciContains [] p) = false := by
  refine ⟨fun probs content => ⟨?_, ?_⟩, fun probs content => ⟨?_, ?_⟩, by decide, by decide⟩
  · intro h
    unfold Part009.applyHeuristicOverrides
    rw [p9_code_matcher_eq_ciContains, h]
    simp
  · intro h
    unfold Part009.applyHeuristicOverrides
    rw [p9_code_matcher_eq_ciContains, h]
    simp
  · intro h
    unfold Part006.applyHeuristicOverrides
    rw [p6_code_matcher_eq_ciContains, h]
    simp
  · intro h
    unfold Part006.applyHeuristicOverrides
    rw [p6_code_matcher_eq_ciContains, h]
    simp

/-- C4 witness: the payload "bit.ly/abc" triggers the override of the raw
triple (20, 20, 20) in both variants, and "example.com" triggers neither. -/
theorem heuristic_override_behaviour_witness :
    Part009.applyHeuristicOverrides ⟨20, 20, 20⟩ ("bit.ly/abc".toList) = ⟨90, 100, 5⟩ ∧
    Part006.applyHeuristicOverrides ⟨20, 20, 20⟩ ("bit.ly/abc".toList) = ⟨85, 100, 5⟩ ∧
    Part009.applyHeuristicOverrides ⟨20, 20, 20⟩ ("example.com".toList) = ⟨20, 20, 20⟩ :=
  ⟨((heuristic_override_behaviour.1 ⟨20, 20, 20⟩ ("bit.ly/abc".toList)).1
      (by decide)).trans (by decide),
   ((heuristic_override_behaviour.2.1 ⟨20, 20, 20⟩ ("bit.ly/abc".toList)).1
      (by decide)).trans (by decide),
   (heuristic_override_behaviour.1 ⟨20, 20, 20⟩ ("example.com".toList)).2 (by decide)⟩

/-- C3 (amended): in the part_009 variant the assembled riskLevel is exactly
the band classifier applied to the assembled riskScore; the classifier is
monotone in the score and its five bands are precisely the intervals
below 20, 20-39, 40-59, 60-79 and 80 upward, which partition the score
range. (The geminiService.ts variant instead passes the upstream risk_level
through; see the counterexample.) -/
theorem risk_level_classifier_pure_and_monotone :
    (∀ (raw : RawResponse) (dc : List Char),
      (Part009.processResponse raw dc).riskLevel
          = Part009.riskLevelOf ((Part009.processResponse raw dc).riskScore)) ∧
    (∀ s1 s2 : ℤ, s1 < s2 →
      severity (Part009.riskLevelOf s1) ≤ severity (Part009.riskLevelOf s2)) ∧
    (∀ s : ℤ,
      (Part009.riskLevelOf s = .CRITICAL ↔ 80 ≤ s) ∧
      (Part009.riskLevelOf s = .HIGH ↔ 60 ≤ s ∧ s < 80) ∧
      (Part009.riskLevelOf s = .SUSPICIOUS ↔ 40 ≤ s ∧ s < 60) ∧
      (Part009.riskLevelOf s = .MODERATE ↔ 20 ≤ s ∧ s < 40) ∧
      (Part009.riskLevelOf s = .LOW ↔ s < 20)) := by
  refine ⟨fun raw dc => rfl, ?_, ?_⟩
  · intro s1 s2 h
    unfold Part009.riskLevelOf
    split_ifs <;> simp [severity] <;> omega
  · intro s
    unfold Part009.riskLevelOf
    split_ifs <;> refine ⟨?_, ?_, ?_, ?_, ?_⟩ <;> simp <;> omega

/-- C3 witness: monotonicity instantiated at the scores 10 < 90. -/
theorem risk_level_classifier_monotone_witness :
    severity (Part009.riskLevelOf 10) ≤ severity (Part009.riskLevelOf 90) :=
  risk_level_classifier_pure_and_monotone.2.1 10 90 (by norm_num)

/-- C3 counterexample: in geminiService.ts the riskLevel is not a function of
the riskScore — two upstream responses with identical probability fields
(hence identical scores) but different `risk_level` strings yield different
levels. -/
theorem gs_level_not_function_of_score :
    (GeminiService.processResponse
        ⟨some ⟨some 50, some 90, some 10⟩, some .LOW, none, none, none⟩ []).riskScore
      = (GeminiService.processResponse
        ⟨some ⟨some 50, some 90, some 10⟩, some .CRITICAL, none, none, none⟩ []).riskScore ∧
    (GeminiService.processResponse
        ⟨some ⟨some 50, some 90, some 10⟩, some .LOW, none, none, none⟩ []).riskLevel
      = RiskLevel.LOW ∧
    (GeminiService.processResponse
        ⟨some ⟨some 50, some 90, some 10⟩, some .CRITICAL, none, none, none⟩ []).riskLevel
      = RiskLevel.CRITICAL ∧
    RiskLevel.LOW ≠ RiskLevel.CRITICAL := by
  refine ⟨?_, rfl, rfl, by decide⟩
  exact congrArg
    (fun q => GeminiService.computeScore (GeminiService.ensureDimensionalSeparation q))
    (by decide :
      extractProbs ⟨some ⟨some 50, some 90, some 10⟩, some .LOW, none, none, none⟩
        = extractProbs ⟨some ⟨some 50, some 90, some 10⟩, some .CRITICAL, none, none, none⟩)

/-- C9: the post-processing pipeline is deterministic — identical parsed
responses and identical payload text give identical probability fields and
identical composite score, in both variants (the embedded pipeline reads no
state besides its two arguments). -/
theorem pipeline_deterministic :
    ∀ (raw1 raw2 : RawResponse) (dc1 dc2 : List Char),
      raw1 = raw2 → dc1 = dc2 →
      ((GeminiService.processResponse raw1 dc1).probabilities
          = (GeminiService.processResponse raw2 dc2).probabilities ∧
       (GeminiService.processResponse raw1 dc1).riskScore
          = (GeminiService.processResponse raw2 dc2).riskScore) ∧
      ((Part009.processResponse raw1 dc1).probabilities
          = (Part009.processResponse raw2 dc2).probabilities ∧
       (Part009.processResponse raw1 dc1).riskScore
          = (Part009.processResponse raw2 dc2).riskScore) := by
  intro raw1 raw2 dc1 dc2 h1 h2
  subst h1
  subst h2
  exact ⟨⟨rfl, rfl⟩, ⟨rfl, rfl⟩⟩

/-- C9 witness: two runs on the same empty response and payload agree. -/
theorem pipeline_deterministic_witness :
    (GeminiService.processResponse ⟨none, none, none, none, none⟩ []).probabilities
        = (GeminiService.processResponse ⟨none, none, none, none, none⟩ []).probabilities ∧
    (Part009.processResponse ⟨none, none, none, none, none⟩ []).riskScore
        = (Part009.processResponse ⟨none, none, none, none, none⟩ []).riskScore :=
  ⟨(pipeline_deterministic ⟨none, none, none, none, none⟩ ⟨none, none, none, none, none⟩
      [] [] rfl rfl).1.1,
   (pipeline_deterministic ⟨none, none, none, none, none⟩ ⟨none, none, none, none, none⟩
      [] [] rfl rfl).2.2⟩

/-- C6 (amended): on the raw triple (20, 20, 20) with payload "bit.ly/abc",
the part_009 pipeline flags the payload and overrides to (90, 100, 5); the
separation enforcer is then NOT a no-op — the gap between the two highest
dimensions (100 and 90) is below 40, so it clamps authentic down to 0 —
and the composite score of the final triple (90, 100, 0) is 100, in the
CRITICAL band. -/
theorem quishing_scenario_bitly :
    Part009.applyHeuristicOverrides ⟨20, 20, 20⟩ ("bit.ly/abc".toList) = ⟨90, 100, 5⟩ ∧
    Part009.ensureDimensionalSeparation ⟨90, 100, 5⟩ = ⟨90, 100, 0⟩ ∧
    (Part009.processResponse ⟨some ⟨some 20, some 20, some 20⟩, none, none, none, none⟩
        ("bit.ly/abc".toList)).probabilities = ⟨90, 100, 0⟩ ∧
    (Part009.processResponse ⟨some ⟨some 20, some 20, some 20⟩, none, none, none, none⟩
        ("bit.ly/abc".toList)).riskScore = 100 ∧
    (Part009.processResponse ⟨some ⟨some 20, some 20, some 20⟩, none, none, none, none⟩
        ("bit.ly/abc".toList)).riskLevel = RiskLevel.CRITICAL := by
  have h0 : extractProbs ⟨some ⟨some 20, some 20, some 20⟩, none, none, none, none⟩
      = ⟨20, 20, 20⟩ := by decide
  have h1 : Part009.applyHeuristicOverrides ⟨20, 20, 20⟩
      ['b', 'i', 't', '.', 'l', 'y', '/', 'a', 'b', 'c'] = ⟨90, 100, 5⟩ := by decide
  have h1s : Part009.applyHeuristicOverrides ⟨20, 20, 20⟩ ("bit.ly/abc".toList)
      = ⟨90, 100, 5⟩ := by decide
  have h2 : Part009.ensureDimensionalSeparation ⟨90, 100, 5⟩ = ⟨90, 100, 0⟩ := by
    norm_num [Part009.ensureDimensionalSeparation, midKey, thirdDim, hiKey, loKey,
      getDim, setDim]
  refine ⟨h1s, h2, ?_, ?_, ?_⟩
  · norm_num [Part009.processResponse, h0, h1, h2]
  · norm_num [Part009.processResponse, h0, h1, h2, Part009.computeScore, mathRound]
  · norm_num [Part009.processResponse, h0, h1, h2, Part009.computeScore, mathRound,
      Part009.riskLevelOf]

/-- C6 counterexample: the separation check is not already satisfied for the
overridden triple in the sense the code tests — the enforcer changes the
triple (it lowers authentic from 5 to 0), so "it is unchanged" is false. -/
theorem quishing_scenario_enforcer_not_identity :
    Part009.ensureDimensionalSeparation
        (Part009.applyHeuristicOverrides ⟨20, 20, 20⟩ ("bit.ly/abc".toList))
      ≠ Part009.applyHeuristicOverrides ⟨20, 20, 20⟩ ("bit.ly/abc".toList) := by
  have h1 : Part009.applyHeuristicOverrides ⟨20, 20, 20⟩ ("bit.ly/abc".toList)
      = ⟨90, 100, 5⟩ := by decide
  rw [h1]
  have h2 : Part009.ensureDimensionalSeparation ⟨90, 100, 5⟩ = ⟨90, 100, 0⟩ := by
    norm_num [Part009.ensureDimensionalSeparation, midKey, thirdDim, hiKey, loKey,
      getDim, setDim]
  rw [h2]
  decide

theorem append_ne_nil_left (x y : List Char) (hx : x ≠ []) : x ++ y ≠ [] := by
  cases x with
  | nil => exact absurd rfl hx
  | cons a t =>
    intro hc
    simp at hc

theorem strOrDefault_ne_nil (v : Option (List Char)) (d : List Char) (hd : d ≠ []) :
    strOrDefault v d ≠ [] := by
  cases v with
  | none => exact hd
  | some s =>
    show (if s = [] then d else s) ≠ []
    split_ifs with h
    · exact hd
    · exact h

/-- C10: if every field of the extracted raw triple lies in [0, 100], then so
does every probability field of the assembled result — the heuristic
override and both separation enforcers map in-range triples to in-range
triples, the assembled probabilities are exactly the enforcer output, and
(final conjunct) without the precondition an out-of-range field passes
through unclamped. -/
theorem probabilities_stay_in_range :
    (∀ (p : ProbabilityMap) (content : List Char),
      inUnitRange p → inUnitRange (Part009.applyHeuristicOverrides p content)) ∧
    (∀ p : ProbabilityMap, inUnitRange p →
      inUnitRange (GeminiService.ensureDimensionalSeparation p)) ∧
    (∀ p : ProbabilityMap, inUnitRange p →
      inUnitRange (Part009.ensureDimensionalSeparation p)) ∧
    (∀ (raw : RawResponse) (dc : List Char),
      (GeminiService.processResponse raw dc).probabilities
          = GeminiService.ensureDimensionalSeparation (extractProbs raw) ∧
      (Part009.processResponse raw dc).probabilities
          = Part009.ensureDimensionalSeparation
              (Part009.applyHeuristicOverrides (extractProbs raw) dc)) ∧
    GeminiService.ensureDimensionalSeparation ⟨200, 0, 0⟩ = ⟨200, 0, 0⟩ := by
  refine ⟨?_, ?_, ?_, fun raw dc => ⟨rfl, rfl⟩, ?_⟩
  · intro p content hp
    obtain ⟨h1, h2, h3, h4, h5, h6⟩ := hp
    unfold Part009.applyHeuristicOverrides
    split_ifs with hflag
    · exact ⟨le_trans (by norm_num) (le_max_right _ _), max_le h2 (by norm_num),
        by norm_num, by norm_num, le_min h5 (by norm_num),
        le_trans (min_le_right _ _) (by norm_num)⟩
    · exact ⟨h1, h2, h3, h4, h5, h6⟩
  · intro p hp
    obtain ⟨h1, h2, h3, h4, h5, h6⟩ := hp
    have hb : ∀ k, 0 ≤ getDim p k ∧ getDim p k ≤ 100 :=
      getDim_bounds p 0 100 ⟨h1, h2⟩ ⟨h3, h4⟩ ⟨h5, h6⟩
    unfold GeminiService.ensureDimensionalSeparation
    split_ifs with hlt
    · set r := setDim (setDim p (hiKey p) (min 100 (getDim p (hiKey p) + 15)))
        (loKey p) (max 0 (getDim p (loKey p) - 15)) with hrdef
      have key : ∀ k, 0 ≤ getDim r k ∧ getDim r k ≤ 100 := by
        intro k
        by_cases hkl : k = loKey p
        · subst hkl
          rw [hrdef, getDim_setDim_same]
          exact ⟨le_max_left _ _,
            max_le (by norm_num) (by linarith [(hb (loKey p)).2])⟩
        · by_cases hkh : k = hiKey p
          · subst hkh
            rw [hrdef, getDim_setDim_ne _ _ _ _ (fun he => hkl he.symm),
              getDim_setDim_same]
            exact ⟨le_min (by norm_num) (by linarith [(hb (hiKey p)).1]),
              min_le_left _ _⟩
          · rw [hrdef, getDim_setDim_ne _ _ _ _ (fun he => hkl he.symm),
              getDim_setDim_ne _ _ _ _ (fun he => hkh he.symm)]
            exact hb k
      exact ⟨(key .malicious).1, (key .malicious).2, (key .fake).1, (key .fake).2,
        (key .authentic).1, (key .authentic).2⟩
    · exact ⟨h1, h2, h3, h4, h5, h6⟩
  · intro p hp
    obtain ⟨h1, h2, h3, h4, h5, h6⟩ := hp
    have hb : ∀ k, 0 ≤ getDim p k ∧ getDim p k ≤ 100 :=
      getDim_bounds p 0 100 ⟨h1, h2⟩ ⟨h3, h4⟩ ⟨h5, h6⟩
    unfold Part009.ensureDimensionalSeparation
    split_ifs with hlt
    · set r := setDim (setDim p (hiKey p) (min 100 (getDim p (hiKey p) + 30)))
        (loKey p) (max 0 (getDim p (loKey p) - 30)) with hrdef
      have key : ∀ k, 0 ≤ getDim r k ∧ getDim r k ≤ 100 := by
        intro k
        by_cases hkl : k = loKey p
        · subst hkl
          rw [hrdef, getDim_setDim_same]
          exact ⟨le_max_left _ _,
            max_le (by norm_num) (by linarith [(hb (loKey p)).2])⟩
        · by_cases hkh : k = hiKey p
          · subst hkh
            rw [hrdef, getDim_setDim_ne _ _ _ _ (fun he => hkl he.symm),
              getDim_setDim_same]
            exact ⟨le_min (by norm_num) (by linarith [(hb (hiKey p)).1]),
              min_le_left _ _⟩
          · rw [hrdef, getDim_setDim_ne _ _ _ _ (fun he => hkl he.symm),
              getDim_setDim_ne _ _ _ _ (fun he => hkh he.symm)]
            exact hb k
      exact ⟨(key .malicious).1, (key .malicious).2, (key .fake).1, (key .fake).2,
        (key .authentic).1, (key .authentic).2⟩
    · exact ⟨h1, h2, h3, h4, h5, h6⟩
  · norm_num [GeminiService.ensureDimensionalSeparation, maxPairwiseDiff]

/-- C10 witness: the override and both enforcers keep the in-range triples
(20, 20, 20) and (90, 100, 5) in range. -/
theorem probabilities_stay_in_range_witness :
    inUnitRange (Part009.applyHeuristicOverrides ⟨20, 20, 20⟩ ("bit.ly/abc".toList)) ∧
    inUnitRange (GeminiService.ensureDimensionalSeparation ⟨90, 100, 5⟩) ∧
    inUnitRange (Part009.ensureDimensionalSeparation ⟨90, 100, 5⟩) :=
  ⟨probabilities_stay_in_range.1 ⟨20, 20, 20⟩ ("bit.ly/abc".toList)
      (by norm_num [inUnitRange]),
   probabilities_stay_in_range.2.1 ⟨90, 100, 5⟩ (by norm_num [inUnitRange]),
   probabilities_stay_in_range.2.2.1 ⟨90, 100, 5⟩ (by norm_num [inUnitRange])⟩

/-- C7 (amended): the assembler substitutes 0 for a missing or null
probability field and for falsy non-numeric values (empty string, 0 itself),
a fixed generic explanation for a missing (or empty) explanation, and a
fixed one-element recommendation list for missing recommendations; nonzero
numbers pass through. (Truthy non-numeric values are NOT coerced to 0 —
see the counterexample.) -/
theorem assembler_defaults :
    probFieldOrZero none = .jnum 0 ∧
    probFieldOrZero (some .jnull) = .jnum 0 ∧
    probFieldOrZero (some (.jstr [])) = .jnum 0 ∧
    probFieldOrZero (some (.jnum 0)) = .jnum 0 ∧
    (∀ q : ℚ, q ≠ 0 → probFieldOrZero (some (.jnum q)) = .jnum q) ∧
    (∀ raw : RawResponse, raw.probability_breakdown = none →
      extractProbs raw = ⟨0, 0, 0⟩) ∧
    (∀ (raw : RawResponse) (dc : List Char), raw.expert_assessment = none →
      (GeminiService.processResponse raw dc).explanation
          = ("No detailed forensic log generated.".toList) ∧
      (Part009.processResponse raw dc).explanation = ("No log generated.".toList)) ∧
    (∀ (raw : RawResponse) (dc : List Char), raw.recommended_actions = none →
      (GeminiService.processResponse raw dc).recommendations
          = [("Exercise high caution.".toList)] ∧
      (Part009.processResponse raw dc).recommendations
          = [("Exercise caution.".toList)]) := by
  refine ⟨rfl, rfl, rfl, rfl, ?_, ?_, ?_, ?_⟩
  · intro q hq
    simp [probFieldOrZero, truthy, hq]
  · intro raw h
    unfold extractProbs
    rw [h]
    rfl
  · intro raw dc h
    constructor
    · show strOrDefault raw.expert_assessment ("No detailed forensic log generated.".toList)
          = ("No detailed forensic log generated.".toList)
      rw [h]
      rfl
    · show strOrDefault raw.expert_assessment ("No log generated.".toList)
          = ("No log generated.".toList)
      rw [h]
      rfl
  · intro raw dc h
    constructor
    · show raw.recommended_actions.getD [("Exercise high caution.".toList)]
          = [("Exercise high caution.".toList)]
      rw [h]
      rfl
    · show raw.recommended_actions.getD [("Exercise caution.".toList)]
          = [("Exercise caution.".toList)]
      rw [h]
      rfl

/-- C7 witness: a response with every field absent is assembled from the
documented defaults; a nonzero numeric field passes through. -/
theorem assembler_defaults_witness :
    probFieldOrZero (some (.jnum 7)) = .jnum 7 ∧
    extractProbs ⟨none, none, none, none, none⟩ = ⟨0, 0, 0⟩ ∧
    (GeminiService.processResponse ⟨none, none, none, none, none⟩ []).explanation
        = ("No detailed forensic log generated.".toList) ∧
    (Part009.processResponse ⟨none, none, none, none, none⟩ []).recommendations
        = [("Exercise caution.".toList)] :=
  ⟨assembler_defaults.2.2.2.2.1 7 (by norm_num),
   assembler_defaults.2.2.2.2.2.1 ⟨none, none, none, none, none⟩ rfl,
   (assembler_defaults.2.2.2.2.2.2.1 ⟨none, none, none, none, none⟩ [] rfl).1,
   (assembler_defaults.2.2.2.2.2.2.2 ⟨none, none, none, none, none⟩ [] rfl).2⟩

/-- C7 counterexample: a truthy non-numeric probability value is not coerced
to 0 — `value || 0` passes the string through unchanged. -/
theorem nonnumeric_probability_not_coerced :
    probFieldOrZero (some (.jstr ("abc".toList))) = .jstr ("abc".toList) ∧
    probFieldOrZero (some (.jstr ("abc".toList))) ≠ .jnum 0 := by
  exact ⟨rfl, by decide⟩

/-- C8: the performDeepAnalysis of geminiService.ts returns a well-formed
AnalysisResult on every path — it never propagates an exception: a missing
API key and a failed or unparseable remote call both yield the fixed
getErrorResult fallback, whose score, level and probabilities are fixed
(0 / LOW / zeros for the key error, 50 / SUSPICIOUS / zeros otherwise) and
whose explanation and recommendations are non-empty; the success path also
always carries a non-empty explanation. -/
theorem deep_analysis_never_raises :
    (∀ (content : Option (List Char)) (apiKeyPresent : Bool)
        (remote : Except (List Char) RawResponse),
      (GeminiService.performDeepAnalysis content apiKeyPresent remote).explanation ≠ []) ∧
    (∀ (content : Option (List Char)) (remote : Except (List Char) RawResponse),
      GeminiService.performDeepAnalysis content false remote
        = GeminiService.getErrorResult (strOrDefault content ("Analysis Halted".toList))
            ("API_KEY_MISSING".toList)) ∧
    (∀ (content : Option (List Char)) (e : List Char),
      GeminiService.performDeepAnalysis content true (.error e)
        = GeminiService.getErrorResult (strOrDefault content ("Scan Failed".toList)) e) ∧
    (∀ c e : List Char,
      (GeminiService.getErrorResult c e).explanation ≠ [] ∧
      (GeminiService.getErrorResult c e).recommendations ≠ [] ∧
      (GeminiService.getErrorResult c e).probabilities = ⟨0, 0, 0⟩ ∧
      ((GeminiService.getErrorResult c e).riskScore = 0 ∧
          (GeminiService.getErrorResult c e).riskLevel = .LOW ∨
        (GeminiService.getErrorResult c e).riskScore = 50 ∧
          (GeminiService.getErrorResult c e).riskLevel = .SUSPICIOUS)) := by
  have herr : ∀ c e : List Char,
      (GeminiService.getErrorResult c e).explanation ≠ [] ∧
      (GeminiService.getErrorResult c e).recommendations ≠ [] ∧
      (GeminiService.getErrorResult c e).probabilities = ⟨0, 0, 0⟩ ∧
      ((GeminiService.getErrorResult c e).riskScore = 0 ∧
          (GeminiService.getErrorResult c e).riskLevel = .LOW ∨
        (GeminiService.getErrorResult c e).riskScore = 50 ∧
          (GeminiService.getErrorResult c e).riskLevel = .SUSPICIOUS) := by
    intro c e
    unfold GeminiService.getErrorResult
    dsimp only
    split_ifs with hk
    · exact ⟨by decide, by decide, rfl, Or.inl ⟨rfl, rfl⟩⟩
    · refine ⟨?_, by decide, rfl, Or.inr ⟨rfl, rfl⟩⟩
      exact append_ne_nil_left _ _ (append_ne_nil_left _ _ (by decide))
  refine ⟨?_, fun content remote => rfl, fun content e => rfl, herr⟩
  intro content apiKeyPresent remote
  unfold GeminiService.performDeepAnalysis
  split_ifs with hk
  · exact (herr _ _).1
  · cases remote with
    | error e => exact (herr _ _).1
    | ok raw =>
      exact strOrDefault_ne_nil _ _ (by decide)
